import Mathlib

/-!
Verification development for the librian-vm-ts core: a shallow embedding of
the compiler (src/compiler.ts), the virtual machine and frames (vm source
file), and the parser's rule table (src/parser.ts), together with theorems
checking the natural-language specification against this embedding.

Modelling conventions:
* TypeScript runtime values stored in parsed nodes are modelled by `Value`
  (string, number, or list of string dictionaries); an attribute read
  `node[k]` yields `Option Value`, `none` standing for JS `undefined`.
  `x == null` in the source (true for both `null` and `undefined`) is
  modelled by `Option.isNone`.
* The frame stack is a `List Frame` with the TOP of the stack at the HEAD
  (the source uses an array with the top at the end).
* The regex-driven `Parser.parse` is treated as an abstract function
  (`Compiler.parse`): none of the compiler/VM claims depends on its
  internals; the parser's statement rule table is embedded separately as
  the list of node-type names it can assign.
* The host-provided pieces (module loading, module-path equivalence, and
  the embedded-code evaluator built on `new Function`) are parameters,
  bundled in `Ctx`.  The evaluator is abstracted as the sequence of calls
  the evaluated code makes to the five injected callables (`EmbeddedCmd`).
* `nextOutput` may loop forever in the source (e.g. a non-disposable
  same-module `goto`), so the embedding is fuel-indexed: a result of
  `none` means the fuel ran out, `some (s, r)` gives the final VM state
  together with either a thrown `VmError` or the returned value.  State
  mutations performed before a throw are kept in the returned state,
  matching the in-place mutation of the source.
-/

/-- A runtime value held in a parsed node's attribute map: the parser
produces strings, numbers (`indentSize`, `lastBlank`) and, for
`parameterList`, arrays of string dictionaries. -/
inductive Value where
  | str (s : String)
  | num (n : Int)
  | dicts (l : List (List (String × String)))
deriving DecidableEq, Repr

/-- `Node` from parser.ts: an attribute map (`Dict`) from attribute names
to values.  Modelled as an association list; lookup of an absent key gives
`none` (JS `undefined`). -/
abbrev Node := List (String × Value)

/-- Attribute read `node[k]`. -/
def Node.get (node : Node) (key : String) : Option Value :=
  (List.find? (fun p => p.1 = key) node).map (·.2)

/-- `Option` from compiler.ts (renamed: `Option` is taken in Lean).  The
second and third fields are the target module path and target tag for a
parsed option node, or raw code content and code type in the embedded-code
case; the source names the slots `pathOrCodeContent` / `tagOrCodeType`.
There are NO fields named `path` or `tag` on this class. -/
structure Opt where
  name : Option Value
  pathOrCodeContent : Option Value := none
  tagOrCodeType : Option Value := none
deriving DecidableEq, Repr

/-- `Option.fromNode`: reads `optionName`, `file`, `location`. -/
def Opt.fromNode (node : Node) : Opt :=
  { name := node.get "optionName"
    pathOrCodeContent := node.get "file"
    tagOrCodeType := node.get "location" }

/-- The instruction hierarchy of compiler.ts.  `nodeI` is
`NodeInstruction`; its `itype` field was computed at construction as
`node['type']` (an arbitrary value, `none` if the node has no `type`
attribute).  The other constructors carry the fixed itypes `"call"`,
`"goto"`, `"adv_end"`, `"choice"`. -/
inductive Instruction where
  | nodeI (itype : Option Value) (node : Node) (isDisposable : Bool)
  | call (path : Option String) (tag : Option String) (isDisposable : Bool)
  | goto (path : Option String) (tag : Option String) (isDisposable : Bool)
  | advEnd (isDisposable : Bool)
  | choice (options : List Opt) (isDisposable : Bool) (isEmbeddedCode : Bool)
deriving DecidableEq, Repr

/-- The `itype` discriminator the VM's switch dispatches on. -/
def Instruction.itype : Instruction → Option Value
  | .nodeI t _ _ => t
  | .call _ _ _ => some (.str "call")
  | .goto _ _ _ => some (.str "goto")
  | .advEnd _ => some (.str "adv_end")
  | .choice _ _ _ => some (.str "choice")

/-- The `isDisposable` flag common to all instructions. -/
def Instruction.isDisposable : Instruction → Bool
  | .nodeI _ _ d => d
  | .call _ _ d => d
  | .goto _ _ d => d
  | .advEnd d => d
  | .choice _ d _ => d

/-- `.node` as read after the `as NodeInstruction` casts in the VM; on a
non-node instruction the property does not exist (JS `undefined`; the VM
only reads it under itype checks that imply a `NodeInstruction`). -/
def Instruction.node : Instruction → Node
  | .nodeI _ n _ => n
  | _ => []

/-- `.path` as read after the `as CallInstruction` / `as GotoInstruction`
casts; `undefined` (here `none`) on instructions without the field. -/
def Instruction.path : Instruction → Option String
  | .call p _ _ => p
  | .goto p _ _ => p
  | _ => none

/-- `.tag` as read after the casts; `undefined` (`none`) when absent. -/
def Instruction.tag : Instruction → Option String
  | .call _ t _ => t
  | .goto _ t _ => t
  | _ => none

/-- `.options` as read after the `as ChoiceInstruction` cast. -/
def Instruction.options : Instruction → List Opt
  | .choice opts _ _ => opts
  | _ => []

/-- `NodeInstruction` constructor: `super(node['type'] as string, d)`. -/
def NodeInstruction (node : Node) (isDisposable : Bool := false) : Instruction :=
  .nodeI (node.get "type") node isDisposable

/-- `ChoiceInstruction.fromNodes`: one option per node, `isEmbeddedCode`
left at its default `false`. -/
def ChoiceInstruction.fromNodes (nodes : List Node) (isDisposable : Bool := false) : Instruction :=
  .choice (nodes.map Opt.fromNode) isDisposable false

/-- `node['type'] === 'option'` (the compiler's switch case). -/
def isOptionNode (node : Node) : Bool :=
  node.get "type" = some (.str "option")

/-- `node['type'] === 'comment'` (the compiler's switch case). -/
def isCommentNode (node : Node) : Bool :=
  node.get "type" = some (.str "comment")

/-- One iteration of the `nodes.forEach` loop in `Compiler.compile`,
threading the emitted instruction list and the pending `options` buffer. -/
def compileStep (isDisposable : Bool) (acc : List Instruction × List Node) (node : Node) :
    List Instruction × List Node :=
  let instructions := acc.1
  let options := acc.2
  if 0 < options.length then
    if isOptionNode node then
      (instructions, options ++ [node])
    else if isCommentNode node then
      (instructions ++ [ChoiceInstruction.fromNodes options isDisposable], [])
    else
      (instructions ++ [ChoiceInstruction.fromNodes options isDisposable,
        NodeInstruction node isDisposable], [])
  else
    if isOptionNode node then
      (instructions, options ++ [node])
    else if isCommentNode node then
      (instructions, options)
    else
      (instructions ++ [NodeInstruction node isDisposable], options)

/-- The trailing flush after the loop: `if (options.length > 0) push(...)`. -/
def compileFinish (isDisposable : Bool) (acc : List Instruction × List Node) :
    List Instruction :=
  if 0 < acc.2.length then
    acc.1 ++ [ChoiceInstruction.fromNodes acc.2 isDisposable]
  else acc.1

/-- `Compiler.compile` on an already-parsed node array. -/
def Compiler.compileNodes (nodes : List Node) (isDisposable : Bool) : List Instruction :=
  compileFinish isDisposable (nodes.foldl (compileStep isDisposable) ([], []))

/-- The `Compiler` object; it holds a `Parser`, abstracted here as its
`parse` function (the only way the compiler uses it). -/
structure Compiler where
  parse : String → List Node

/-- `Compiler.compile` on a string source: parse, then compile nodes. -/
def Compiler.compileSource (c : Compiler) (source : String) (isDisposable : Bool) :
    List Instruction :=
  Compiler.compileNodes (c.parse source) isDisposable

/-- `Module` (renamed: `Module` is taken by Mathlib): an instruction list
plus a host-opaque path. -/
structure VmModule where
  instructions : List Instruction
  path : String
deriving DecidableEq

/-- `Frame`: working instruction list, program counter, module path, and
the pristine copy (`originalInstructions`) taken at construction. -/
structure Frame where
  instructions : List Instruction
  programCounter : Nat
  modulePath : String
  originalInstructions : List Instruction
deriving DecidableEq, Repr

/-- The `Frame` constructor: both lists are copies of the module's list,
PC starts at 0. -/
def Frame.ofModule (module : VmModule) : Frame :=
  { instructions := module.instructions
    programCounter := 0
    modulePath := module.path
    originalInstructions := module.instructions }

/-- `Frame.fromOther`: a new frame over `other`'s PRISTINE list and path
(`new Frame(new Module(other.originalInstructions, other.modulePath))`). -/
def Frame.fromOther (other : Frame) : Frame :=
  Frame.ofModule ⟨other.originalInstructions, other.modulePath⟩

/-- The errors thrown as `VmError` in the VM source, discriminated by the
condition that raised them.  `envFailure` stands for a rejected
environment operation (module load failure), which propagates out. -/
inductive VmError where
  | missingInput
  | nullOptionIndex
  | optionIndexOutOfRange
  | jumpNotFound (tag : String) (modulePath : String)
  | unknownInstruction (itype : Option Value)
  | envFailure
deriving DecidableEq, Repr

/-- The body of the scan in `Frame.jump`: `itype === 'jumpPoint'` and the
node's `jumpPoint` attribute `=== tag`. -/
def isMatchingJumpPoint (tag : String) (instruction : Instruction) : Bool :=
  instruction.itype = some (.str "jumpPoint")
    && instruction.node.get "jumpPoint" = some (.str tag)

/-- The index-scanning loop of `Frame.jump`: index of the first matching
jump point, `none` if the loop falls through. -/
def findJumpPoint (tag : String) : List Instruction → Option Nat
  | [] => none
  | instruction :: rest =>
    if isMatchingJumpPoint tag instruction then some 0
    else (findJumpPoint tag rest).map (· + 1)

/-- `Frame.jump(tag)`: null tag resets PC to 0; otherwise scan the working
list for the first matching jump point and set PC to its index, throwing
when none exists (the frame is then left unmodified by the caller, since
the throw happens before any assignment to the PC). -/
def Frame.jump (f : Frame) (tag : Option String) : Except VmError Frame :=
  match tag with
  | some t =>
    match findJumpPoint t f.instructions with
    | some index => .ok { f with programCounter := index }
    | none => .error (.jumpNotFound t f.modulePath)
  | none => .ok { f with programCounter := 0 }

/-- `Frame.insertInstructions`: splice the given instructions into the
working list at PC (no-op on an empty argument, as in the source). -/
def Frame.insertInstructions (f : Frame) (instructions : List Instruction) : Frame :=
  if 0 < instructions.length then
    { f with instructions :=
        f.instructions.take f.programCounter ++ instructions
          ++ f.instructions.drop f.programCounter }
  else f

/-- `Frame.isEnded`: PC is past the end of the working list. -/
def Frame.isEnded (f : Frame) : Bool :=
  f.instructions.length ≤ f.programCounter

/-- `Frame.getInstruction`: the working-list entry at PC (`undefined`,
i.e. `none`, when past the end; the VM only calls this on a non-ended
frame). -/
def Frame.getInstruction (f : Frame) : Option Instruction :=
  f.instructions[f.programCounter]?

/-- `Frame.nextInstruction` (the spec's `advance()`): remove the current
instruction at PC when it is disposable, otherwise increment PC.  The
`none` case is unreachable in the VM (the source would throw a TypeError
there). -/
def Frame.nextInstruction (f : Frame) : Frame :=
  match f.instructions[f.programCounter]? with
  | some instruction =>
    if instruction.isDisposable then
      { f with instructions := f.instructions.eraseIdx f.programCounter }
    else
      { f with programCounter := f.programCounter + 1 }
  | none => f

/-- `PausePoint` and its subclasses, as built from nodes / options by the
VM.  `Aside` reads `node['aside']`, `RoleDialog` reads five attributes,
`InsertedImage` reads `node['insertedImage']`, `Options` keeps the option
names. -/
inductive PausePoint where
  | aside (aside : Option Value)
  | roleDialog (name aliasAttr effect expression dialog : Option Value)
  | insertedImage (insertedImage : Option Value)
  | options (optionNames : List (Option Value))
deriving DecidableEq, Repr

/-- `new Aside(node)`. -/
def Aside.ofNode (node : Node) : PausePoint :=
  .aside (node.get "aside")

/-- `new RoleDialog(node)`. -/
def RoleDialog.ofNode (node : Node) : PausePoint :=
  .roleDialog (node.get "name") (node.get "alias") (node.get "effect")
    (node.get "expression") (node.get "dialog")

/-- `new InsertedImage(node)`. -/
def InsertedImage.ofNode (node : Node) : PausePoint :=
  .insertedImage (node.get "insertedImage")

/-- `new Options(options)`: keep each option's `name`. -/
def Options.ofOptions (options : List Opt) : PausePoint :=
  .options (options.map (·.name))

/-- `FunctionCalling`: `originalText`, `function`, and the `a` entry of
each dictionary in `parameterList`.  If the attribute is not an array the
source would throw; that case never arises from parser output. -/
structure FunctionCalling where
  originalText : Option Value
  functionName : Option Value
  parameterList : List (Option String)
deriving DecidableEq, Repr

/-- `new FunctionCalling(node)`. -/
def FunctionCalling.ofNode (node : Node) : FunctionCalling :=
  { originalText := node.get "originalText"
    functionName := node.get "function"
    parameterList :=
      match node.get "parameterList" with
      | some (.dicts l) =>
        l.map (fun d => (List.find? (fun p => p.1 = "a") d).map (·.2))
      | _ => [] }

/-- `RoleOperation`: `roleName`, `operator`, `target`. -/
structure RoleOperation where
  roleName : Option Value
  operator : Option Value
  target : Option Value
deriving DecidableEq, Repr

/-- `new RoleOperation(node)`. -/
def RoleOperation.ofNode (node : Node) : RoleOperation :=
  { roleName := node.get "roleName"
    operator := node.get "operator"
    target := node.get "target" }

/-- `RoleExpression`: `name`, `alias`, `effect`, `expression`. -/
structure RoleExpression where
  name : Option Value
  aliasAttr : Option Value
  effect : Option Value
  expression : Option Value
deriving DecidableEq, Repr

/-- `new RoleExpression(node)`. -/
def RoleExpression.ofNode (node : Node) : RoleExpression :=
  { name := node.get "name"
    aliasAttr := node.get "alias"
    effect := node.get "effect"
    expression := node.get "expression" }

/-- `Scene`: `sceneOperator`, `content`. -/
structure Scene where
  sceneOperator : Option Value
  content : Option Value
deriving DecidableEq, Repr

/-- `new Scene(node)`. -/
def Scene.ofNode (node : Node) : Scene :=
  { sceneOperator := node.get "sceneOperator"
    content := node.get "content" }

/-- `Map.set` on an association list: overwrite the value of an existing
key in place (keeping insertion order), otherwise append. -/
def mapSet (m : List (Option Value × FunctionCalling)) (key : Option Value)
    (value : FunctionCalling) : List (Option Value × FunctionCalling) :=
  if m.any (fun p => p.1 = key) then
    m.map (fun p => if p.1 = key then (key, value) else p)
  else m ++ [(key, value)]

/-- `Output`: the record accumulated over one `nextOutput` step. -/
structure Output where
  pausePoint : Option PausePoint := none
  functionCallings : List (Option Value × FunctionCalling) := []
  roleOperation : Option RoleOperation := none
  roleExpression : Option RoleExpression := none
  scene : Option Scene := none
deriving DecidableEq, Repr

/-- `Output.addFunctionCalling`: keyed by the calling's function name. -/
def Output.addFunctionCalling (o : Output) (calling : FunctionCalling) : Output :=
  { o with functionCallings := mapSet o.functionCallings calling.functionName calling }

/-- `Input`: `optionIndex: number | null | undefined`. -/
structure Input where
  optionIndex : Option Int
deriving DecidableEq, Repr

/-- `Environment`: host-provided module-path equivalence and module
loading; a `none` result of `loadModule` models a rejected load, which
propagates out of `nextOutput`. -/
structure Environment where
  modulePathEquals : String → String → Bool
  loadModule : String → String → Option VmModule

/-- One call made by an evaluated embedded-code block to the five
injected callables; each appends to `generatedInstructions`. -/
inductive EmbeddedCmd where
  | fusion (source : String)
  | gotoCmd (path : Option String) (tag : Option String)
  | choiceCmd (options : List (String × String × String))
  | advEndCmd
  | callCmd (path : Option String) (tag : Option String)

/-- The instructions one callable invocation appends: `fusion` compiles
its source with `isDisposable=true`; `goto`/`call` append a disposable
instruction; `choice` appends `new ChoiceInstruction(options, true)`
(so `isEmbeddedCode` keeps its default `false`); `adv_end` appends a
disposable `AdvEndInstruction`. -/
def cmdInstructions (compiler : Compiler) : EmbeddedCmd → List Instruction
  | .fusion source => compiler.compileSource source true
  | .gotoCmd path tag => [.goto path tag true]
  | .choiceCmd options =>
    [.choice (options.map (fun t =>
      { name := some (.str t.1)
        pathOrCodeContent := some (.str t.2.1)
        tagOrCodeType := some (.str t.2.2) })) true false]
  | .advEndCmd => [.advEnd true]
  | .callCmd path tag => [.call path tag true]

/-- `generatedInstructions` after the evaluator returns: the appends of
all callable invocations, in call order. -/
def genInstructions (compiler : Compiler) (cmds : List EmbeddedCmd) : List Instruction :=
  cmds.foldl (fun acc c => acc ++ cmdInstructions compiler c) []

/-- Everything the VM instance closes over: the environment, the compiler
(`this.compiler`) and the host `evaluate` function, abstracted as the
sequence of callable invocations the evaluated `codeContent` performs. -/
structure Ctx where
  env : Environment
  compiler : Compiler
  evalCode : Option Value → List EmbeddedCmd

/-- The VM's mutable state: the frame stack (TOP AT THE HEAD of the list)
and the pending choice (`this.choice`), which always holds a
`ChoiceInstruction` when non-null. -/
structure VMState where
  stack : List Frame
  choice : Option Instruction
deriving DecidableEq, Repr

/-- The state built by the VM constructor: one frame for the start
module, no pending choice. -/
def initialState (startModule : VmModule) : VMState :=
  { stack := [Frame.ofModule startModule], choice := none }

/-- JS array indexing with a possibly negative number:
`options[input.optionIndex]`. -/
def optAt (l : List Opt) (i : Int) : Option Opt :=
  if 0 ≤ i then l[i.toNat]? else none

/-- The `switch (currentInstruction.itype)` dispatch of `nextOutput`,
executed after the frame has advanced past the instruction.
`currentFrame` is the (already advanced) top frame, `rest` the frames
below it; the result is the new VM state, the updated output, and the
thrown error if any (state changes made before a throw are kept). -/
def execInstr (ctx : Ctx) (instruction : Instruction) (currentFrame : Frame)
    (rest : List Frame) (choice : Option Instruction) (output : Output) :
    (VMState × Output) × Option VmError :=
  if instruction.itype = some (.str "aside") then
    ((⟨currentFrame :: rest, choice⟩,
      { output with pausePoint := some (Aside.ofNode instruction.node) }), none)
  else if instruction.itype = some (.str "functionCalling") then
    ((⟨currentFrame :: rest, choice⟩,
      output.addFunctionCalling (FunctionCalling.ofNode instruction.node)), none)
  else if instruction.itype = some (.str "embeddedCode") then
    let codeContent := instruction.node.get "codeContent"
    let generatedInstructions := genInstructions ctx.compiler (ctx.evalCode codeContent)
    ((⟨currentFrame.insertInstructions generatedInstructions :: rest, choice⟩,
      output), none)
  else if instruction.itype = some (.str "roleOperation") then
    ((⟨currentFrame :: rest, choice⟩,
      { output with roleOperation := some (RoleOperation.ofNode instruction.node) }), none)
  else if instruction.itype = some (.str "insertedImage") then
    ((⟨currentFrame :: rest, choice⟩,
      { output with pausePoint := some (InsertedImage.ofNode instruction.node) }), none)
  else if instruction.itype = some (.str "roleDialog") then
    ((⟨currentFrame :: rest, choice⟩,
      { output with pausePoint := some (RoleDialog.ofNode instruction.node) }), none)
  else if instruction.itype = some (.str "roleExpression") then
    ((⟨currentFrame :: rest, choice⟩,
      { output with roleExpression := some (RoleExpression.ofNode instruction.node) }), none)
  else if instruction.itype = some (.str "scene") then
    ((⟨currentFrame :: rest, choice⟩,
      { output with scene := some (Scene.ofNode instruction.node) }), none)
  else if instruction.itype = some (.str "choice") then
    ((⟨currentFrame :: rest, some instruction⟩,
      { output with pausePoint := some (Options.ofOptions instruction.options) }), none)
  else if instruction.itype = some (.str "jumpPoint") then
    ((⟨currentFrame :: rest, choice⟩, output), none)
  else if instruction.itype = some (.str "call") then
    -- the source binds targetFrame once, pushes it, and jumps on it; the
    -- push-then-jump tail is spelled out in each branch here
    match instruction.path with
    | some p =>
      if p.length > 0 && !(ctx.env.modulePathEquals p currentFrame.modulePath) then
        match ctx.env.loadModule p currentFrame.modulePath with
        | some m =>
          match (Frame.ofModule m).jump instruction.tag with
          | .ok jumped => ((⟨jumped :: currentFrame :: rest, choice⟩, output), none)
          | .error e =>
            ((⟨Frame.ofModule m :: currentFrame :: rest, choice⟩, output), some e)
        | none => ((⟨currentFrame :: rest, choice⟩, output), some .envFailure)
      else
        match (Frame.fromOther currentFrame).jump instruction.tag with
        | .ok jumped => ((⟨jumped :: currentFrame :: rest, choice⟩, output), none)
        | .error e =>
          ((⟨Frame.fromOther currentFrame :: currentFrame :: rest, choice⟩,
            output), some e)
    | none =>
      match (Frame.fromOther currentFrame).jump instruction.tag with
      | .ok jumped => ((⟨jumped :: currentFrame :: rest, choice⟩, output), none)
      | .error e =>
        ((⟨Frame.fromOther currentFrame :: currentFrame :: rest, choice⟩,
          output), some e)
  else if instruction.itype = some (.str "goto") then
    match instruction.path with
    | some p =>
      if p.length > 0 && !(ctx.env.modulePathEquals p currentFrame.modulePath) then
        match ctx.env.loadModule p currentFrame.modulePath with
        | some m =>
          -- pop the current frame, push the loaded module's frame, then jump
          match (Frame.ofModule m).jump instruction.tag with
          | .ok jumped => ((⟨jumped :: rest, choice⟩, output), none)
          | .error e => ((⟨Frame.ofModule m :: rest, choice⟩, output), some e)
        | none => ((⟨currentFrame :: rest, choice⟩, output), some .envFailure)
      else
        match currentFrame.jump instruction.tag with
        | .ok jumped => ((⟨jumped :: rest, choice⟩, output), none)
        | .error e => ((⟨currentFrame :: rest, choice⟩, output), some e)
    | none =>
      match currentFrame.jump instruction.tag with
      | .ok jumped => ((⟨jumped :: rest, choice⟩, output), none)
      | .error e => ((⟨currentFrame :: rest, choice⟩, output), some e)
  else if instruction.itype = some (.str "adv_end") then
    ((⟨[], choice⟩, output), none)
  else
    ((⟨currentFrame :: rest, choice⟩, output),
      some (.unknownInstruction instruction.itype))

/-- The first `do`-loop of `nextOutput` (pop ended frames off the top). -/
def dropEnded : List Frame → List Frame
  | [] => []
  | f :: rest => if f.isEnded then dropEnded rest else f :: rest

/-- The second `do`-loop of `nextOutput`: fetch, advance, dispatch, until
a pause point is produced or the stack empties (which breaks the loop and
returns the accumulated output as is).  Fuel-indexed; `none` means the
fuel ran out before the loop finished. -/
def phase2 (ctx : Ctx) : Nat → VMState → Output →
    Option (VMState × Except VmError (Option Output))
  | 0, _, _ => none
  | fuel + 1, s, output =>
    match s.stack with
    | [] => some (s, .ok (some output))
    | currentFrame :: rest =>
      if currentFrame.isEnded then
        phase2 ctx fuel ⟨rest, s.choice⟩ output
      else
        match currentFrame.getInstruction with
        | none => none  -- unreachable: a non-ended frame has an instruction at PC
        | some currentInstruction =>
          match execInstr ctx currentInstruction currentFrame.nextInstruction rest
              s.choice output with
          | ((s', _), some e) => some (s', .error e)
          | ((s', output'), none) =>
            if output'.pausePoint = none then phase2 ctx fuel s' output'
            else some (s', .ok (some output'))

/-- Everything of `nextOutput` after the pending-choice block: pop ended
frames (returning null on an emptied stack), then run the stepping loop
on a fresh `Output`. -/
def runLoops (ctx : Ctx) (fuel : Nat) (s : VMState) :
    Option (VMState × Except VmError (Option Output)) :=
  match dropEnded s.stack with
  | [] => some (⟨[], s.choice⟩, .ok none)
  | f :: rest => phase2 ctx fuel ⟨f :: rest, s.choice⟩ {}

/-- `VM.nextOutput(input?)`.  A pending choice is consumed first: the
call returns null if no current frame exists, throws on a missing input,
a missing option index, or an out-of-range index, and otherwise inserts
one disposable `CallInstruction` at the current frame's PC and clears the
pending choice.  The inserted instruction is built from
`selectedOption.path` and `selectedOption.tag`; the `Option` class
declares `pathOrCodeContent`/`tagOrCodeType` and has no `path`/`tag`
fields, so in JS both property reads yield `undefined` — hence
`Instruction.call none none true` here, whatever the selected option
holds. -/
def nextOutput (ctx : Ctx) (fuel : Nat) (s : VMState) (input : Option Input) :
    Option (VMState × Except VmError (Option Output)) :=
  match s.choice with
  | some pendingChoice =>
    match s.stack with
    | [] => some (s, .ok none)
    | currentFrame :: rest =>
      match input with
      | none => some (s, .error .missingInput)
      | some inp =>
        match inp.optionIndex with
        | none => some (s, .error .nullOptionIndex)
        | some index =>
          match optAt pendingChoice.options index with
          | none => some (s, .error .optionIndexOutOfRange)
          | some _ =>
            runLoops ctx fuel
              ⟨currentFrame.insertInstructions [.call none none true] :: rest, none⟩
  | none => runLoops ctx fuel s

/-- The VM states reachable from the constructor's state through
`nextOutput` calls (any fuel, any input, successful or throwing — the
state a throwing call leaves behind is reachable too). -/
inductive Reachable (ctx : Ctx) (init : VMState) : VMState → Prop
  | init : Reachable ctx init init
  | step {s s' : VMState} {fuel : Nat} {input : Option Input}
      {r : Except VmError (Option Output)} :
      Reachable ctx init s → nextOutput ctx fuel s input = some (s', r) →
      Reachable ctx init s'

/-- The `type` values the parser can assign to a node: the `type` of each
`Statement` rule in `Parser.statementGroup` (parser.ts, in source order),
which `matchStatements` copies into the node; the fallback for a line
matching no rule is `aside`, already in the list. -/
def Parser.statementTypes : List String :=
  ["functionCalling", "embeddedCode", "characterOperation", "insertedImage",
   "characterDialog", "characterDialog", "characterExpression", "scene",
   "option", "comment", "aside", "jumpPoint"]

/-- The closed set of node types named by the specification's
parser-to-compiler contract (spec section 6), to be compared with the
parser's actual rule table and the VM dispatcher. -/
def specNodeTypeSet : List String :=
  ["aside", "roleDialog", "roleExpression", "roleOperation", "scene",
   "insertedImage", "functionCalling", "embeddedCode", "option", "comment",
   "jumpPoint"]

/-- Is this instruction a `ChoiceInstruction`? -/
def Instruction.isChoice : Instruction → Bool
  | .choice _ _ _ => true
  | _ => false

/-- Is this instruction a `NodeInstruction`? -/
def Instruction.isNodeInstruction : Instruction → Bool
  | .nodeI _ _ _ => true
  | _ => false

/-- Number of `ChoiceInstruction`s in an instruction list. -/
def countChoices (l : List Instruction) : Nat :=
  (l.filter Instruction.isChoice).length

/-- The subsequence of `NodeInstruction`s of an instruction list. -/
def nodeInstructionsOf (l : List Instruction) : List Instruction :=
  l.filter Instruction.isNodeInstruction

/-- Number of maximal runs of consecutive `option` nodes in a node list,
`inRun` recording whether a run is open at the current position. -/
def countRunsFrom (inRun : Bool) : List Node → Nat
  | [] => if inRun then 1 else 0
  | node :: rest =>
    if isOptionNode node then countRunsFrom true rest
    else (if inRun then 1 else 0) + countRunsFrom false rest

/-- Number of maximal runs of consecutive `option` nodes. -/
def countOptionRuns (nodes : List Node) : Nat :=
  countRunsFrom false nodes

/-- A context whose host hooks are trivial: every module path is
considered equal to every other, no module ever loads, parsing and
embedded evaluation yield nothing.  Used for concrete scenario runs whose
scripts never leave their module. -/
def trivialCtx : Ctx :=
  { env := { modulePathEquals := fun _ _ => true, loadModule := fun _ _ => none }
    compiler := { parse := fun _ => [] }
    evalCode := fun _ => [] }

/-- Scenario S2's node list: two options targeting tags `t1`/`t2` of
module `m`, then the two labelled asides. -/
def s2Nodes : List Node :=
  [[("type", .str "option"), ("optionName", .str "A"), ("file", .str "m"),
    ("location", .str "t1")],
   [("type", .str "option"), ("optionName", .str "B"), ("file", .str "m"),
    ("location", .str "t2")],
   [("type", .str "jumpPoint"), ("jumpPoint", .str "t1")],
   [("type", .str "aside"), ("aside", .str "a1")],
   [("type", .str "jumpPoint"), ("jumpPoint", .str "t2")],
   [("type", .str "aside"), ("aside", .str "a2")]]

/-- Scenario S2's module, compiled from its nodes (path `m`). -/
def s2Module : VmModule :=
  { instructions := Compiler.compileNodes s2Nodes false, path := "m" }

/-- S2, first call. -/
def s2Run1 : Option (VMState × Except VmError (Option Output)) :=
  nextOutput trivialCtx 20 (initialState s2Module) none

/-- The VM state after S2's first call. -/
def s2State1 : VMState :=
  match s2Run1 with
  | some (s, _) => s
  | none => initialState s2Module

/-- S2, second call, with `optionIndex = 1`. -/
def s2Run2 : Option (VMState × Except VmError (Option Output)) :=
  nextOutput trivialCtx 20 s2State1 (some ⟨some 1⟩)

/-- The pause point of a successful non-null result. -/
def pausePointOf (r : Option (VMState × Except VmError (Option Output))) :
    Option PausePoint :=
  match r with
  | some (_, .ok (some o)) => o.pausePoint
  | _ => none

/-- Scenario S4's module: `call(null,"t")`, `aside("never")`, the label
`t`, then `adv_end()` (path `start`). -/
def s4Module : VmModule :=
  { instructions :=
      [.call none (some "t") false,
       NodeInstruction [("type", .str "aside"), ("aside", .str "never")] false,
       NodeInstruction [("type", .str "jumpPoint"), ("jumpPoint", .str "t")] false,
       .advEnd false]
    path := "start" }

/-- S4, first call. -/
def s4Run : Option (VMState × Except VmError (Option Output)) :=
  nextOutput trivialCtx 20 (initialState s4Module) none

/-- Does this result succeed with a NON-NULL output whose `pausePoint` is
null?  (The spec's output invariant says this never happens.) -/
def returnedOutputWithNullPause
    (r : Option (VMState × Except VmError (Option Output))) : Bool :=
  match r with
  | some (_, .ok (some o)) => o.pausePoint = none
  | _ => false


/-- Removing the element at index `n` shifts the following element into
position `n`. -/
theorem eraseIdx_getElem_at {α : Type} : ∀ (l : List α) (n : Nat),
    (l.eraseIdx n)[n]? = l[n + 1]?
  | [], n => by simp [List.eraseIdx]
  | a :: rest, 0 => by simp [List.eraseIdx]
  | a :: rest, n + 1 => by
    simp only [List.eraseIdx, List.getElem?_cons_succ]
    exact eraseIdx_getElem_at rest n

/-- Claim C5: `advance()` (`Frame.nextInstruction`) removes the current
instruction at PC when it is disposable — leaving the PC unchanged, so
that it points at the instruction that followed — and increments the PC
otherwise, leaving the working list untouched; a disposable instruction
is therefore gone from the frame after its single execution, while a
non-disposable one stays at its position. -/
theorem c5_advance (f : Frame) (i : Instruction)
    (h : f.instructions[f.programCounter]? = some i) :
    (i.isDisposable = true →
      f.nextInstruction =
        { f with instructions := f.instructions.eraseIdx f.programCounter }
      ∧ f.nextInstruction.programCounter = f.programCounter
      ∧ f.nextInstruction.instructions[f.programCounter]? =
          f.instructions[f.programCounter + 1]?)
    ∧ (i.isDisposable = false →
      f.nextInstruction = { f with programCounter := f.programCounter + 1 }
      ∧ f.nextInstruction.instructions = f.instructions) := by
  unfold Frame.nextInstruction
  rw [h]
  cases hd : i.isDisposable <;>
    simp [hd, eraseIdx_getElem_at]

/-- Witness for C5 on a concrete frame: S4's start frame holds a
non-disposable `call` at PC 0, and `advance()` increments the PC. -/
theorem c5_advance_witness :
    (Frame.ofModule s4Module).nextInstruction =
      { Frame.ofModule s4Module with programCounter := 1 } := by
  have h := c5_advance (Frame.ofModule s4Module) (.call none (some "t") false)
    (by decide)
  exact (h.2 (by decide)).1

/-- The scanning loop finds exactly the first matching index. -/
theorem findJumpPoint_eq_some (tag : String) :
    ∀ (l : List Instruction) (i : Nat) (ins : Instruction),
    l[i]? = some ins → isMatchingJumpPoint tag ins = true →
    (l.take i).all (fun x => !isMatchingJumpPoint tag x) = true →
    findJumpPoint tag l = some i
  | [], i, ins, h, _, _ => by simp at h
  | a :: rest, 0, ins, h, hm, _ => by
    simp only [List.getElem?_cons_zero, Option.some_inj] at h
    subst h
    simp [findJumpPoint, hm]
  | a :: rest, i + 1, ins, h, hm, hfirst => by
    simp only [List.take_succ_cons, List.all_cons, Bool.and_eq_true,
      Bool.not_eq_true'] at hfirst
    simp only [List.getElem?_cons_succ] at h
    have := findJumpPoint_eq_some tag rest i ins h hm hfirst.2
    simp [findJumpPoint, hfirst.1, this]

/-- The scanning loop falls through when nothing matches. -/
theorem findJumpPoint_eq_none (tag : String) :
    ∀ (l : List Instruction),
    l.all (fun x => !isMatchingJumpPoint tag x) = true →
    findJumpPoint tag l = none
  | [], _ => rfl
  | a :: rest, h => by
    simp only [List.all_cons, Bool.and_eq_true, Bool.not_eq_true'] at h
    have := findJumpPoint_eq_none tag rest h.2
    simp [findJumpPoint, h.1, this]

/-- Claim C6: `jump(null)` sets PC to 0; `jump(tag)` sets PC to the index
of the first instruction of the current working list whose `itype` is
`jumpPoint` and whose node's `jumpPoint` attribute equals the tag (no
earlier index matches); when no instruction of the working list matches,
the jump throws `JumpNotFound`, and since the throw happens before any
assignment, the frame — in particular its PC — is unchanged.  The scan
runs over `f.instructions`, the working list at call time, so it sees all
prior disposable removals and insertions. -/
theorem c6_jump (f : Frame) :
    (f.jump none = .ok { f with programCounter := 0 })
    ∧ (∀ tag i ins, f.instructions[i]? = some ins →
        isMatchingJumpPoint tag ins = true →
        (f.instructions.take i).all (fun x => !isMatchingJumpPoint tag x) = true →
        f.jump (some tag) = .ok { f with programCounter := i })
    ∧ (∀ tag, f.instructions.all (fun x => !isMatchingJumpPoint tag x) = true →
        f.jump (some tag) = .error (.jumpNotFound tag f.modulePath)) := by
  refine ⟨rfl, ?_, ?_⟩
  · intro tag i ins h hm hfirst
    have hf := findJumpPoint_eq_some tag f.instructions i ins h hm hfirst
    simp [Frame.jump, hf]
  · intro tag hnone
    have hf := findJumpPoint_eq_none tag f.instructions hnone
    simp [Frame.jump, hf]

/-- Witness for C6 on a concrete frame: in S4's start frame the label `t`
sits at index 2, and `jump` finds it; `jump(null)` resets the PC. -/
theorem c6_jump_witness :
    (Frame.ofModule s4Module).jump (some "t") =
      .ok { Frame.ofModule s4Module with programCounter := 2 }
    ∧ (Frame.ofModule s4Module).jump none =
      .ok { Frame.ofModule s4Module with programCounter := 0 } := by
  have h := c6_jump (Frame.ofModule s4Module)
  refine ⟨?_, h.1⟩
  exact h.2.1 "t" 2
    (NodeInstruction [("type", .str "jumpPoint"), ("jumpPoint", .str "t")] false)
    (by decide) (by decide) (by decide)

@[simp]
theorem isChoice_fromNodes (ns : List Node) (d : Bool) :
    (ChoiceInstruction.fromNodes ns d).isChoice = true := rfl

@[simp]
theorem isChoice_nodeInstruction (n : Node) (d : Bool) :
    (NodeInstruction n d).isChoice = false := rfl

@[simp]
theorem isNodeInstruction_fromNodes (ns : List Node) (d : Bool) :
    (ChoiceInstruction.fromNodes ns d).isNodeInstruction = false := rfl

@[simp]
theorem isNodeInstruction_nodeInstruction (n : Node) (d : Bool) :
    (NodeInstruction n d).isNodeInstruction = true := rfl

@[simp]
theorem countChoices_nil : countChoices [] = 0 := rfl

@[simp]
theorem countChoices_cons (i : Instruction) (l : List Instruction) :
    countChoices (i :: l) = (if i.isChoice then 1 else 0) + countChoices l := by
  cases h : i.isChoice <;>
    simp [countChoices, List.filter_cons, h, Nat.add_comm]

@[simp]
theorem countChoices_append (a b : List Instruction) :
    countChoices (a ++ b) = countChoices a + countChoices b := by
  simp [countChoices, List.filter_append]

@[simp]
theorem nodeInstructionsOf_nil : nodeInstructionsOf [] = [] := rfl

@[simp]
theorem nodeInstructionsOf_cons (i : Instruction) (l : List Instruction) :
    nodeInstructionsOf (i :: l) =
      if i.isNodeInstruction then i :: nodeInstructionsOf l
      else nodeInstructionsOf l := by
  cases h : i.isNodeInstruction <;>
    simp [nodeInstructionsOf, List.filter_cons, h]

@[simp]
theorem nodeInstructionsOf_append (a b : List Instruction) :
    nodeInstructionsOf (a ++ b) = nodeInstructionsOf a ++ nodeInstructionsOf b := by
  simp [nodeInstructionsOf, List.filter_append]

/-- Fold invariant for the choice count: finishing the compile loop from
any intermediate accumulator emits one `Choice` per maximal option run
still ahead, counting an open pending buffer as a started run. -/
theorem compile_count_aux (d : Bool) : ∀ (nodes : List Node)
    (instrs : List Instruction) (opts : List Node),
    countChoices (compileFinish d (nodes.foldl (compileStep d) (instrs, opts))) =
      countChoices instrs + countRunsFrom (decide (0 < opts.length)) nodes
  | [], instrs, opts => by
    by_cases h : 0 < opts.length <;>
      simp [compileFinish, h, countRunsFrom]
  | n :: rest, instrs, opts => by
    by_cases h : 0 < opts.length <;>
      by_cases ho : isOptionNode n <;>
      by_cases hc : isCommentNode n <;>
      simp [List.foldl_cons, compileStep, h, ho, hc, countRunsFrom,
        compile_count_aux d rest] <;>
      omega

/-- Fold invariant for the `NodeInstruction` subsequence: each node that
is neither an option nor a comment becomes one `NodeInstruction`, in node
order; options and comments contribute none. -/
theorem compile_nodeInstrs_aux (d : Bool) : ∀ (nodes : List Node)
    (instrs : List Instruction) (opts : List Node),
    nodeInstructionsOf (compileFinish d (nodes.foldl (compileStep d) (instrs, opts))) =
      nodeInstructionsOf instrs ++
        (nodes.filter (fun n => !isOptionNode n && !isCommentNode n)).map
          (fun n => NodeInstruction n d)
  | [], instrs, opts => by
    by_cases h : 0 < opts.length <;>
      simp [compileFinish, h]
  | n :: rest, instrs, opts => by
    by_cases h : 0 < opts.length <;>
      by_cases ho : isOptionNode n <;>
      by_cases hc : isCommentNode n <;>
      simp [List.foldl_cons, compileStep, h, ho, hc, List.filter_cons,
        compile_nodeInstrs_aux d rest]

/-- Fold invariant for per-instruction properties: any property enjoyed
by every compiler-emitted `Choice` and `NodeInstruction` holds of all
instructions of the finished compile. -/
theorem compile_all_aux (d : Bool) (P : Instruction → Prop)
    (hchoice : ∀ ns, P (ChoiceInstruction.fromNodes ns d))
    (hnode : ∀ n, P (NodeInstruction n d)) :
    ∀ (nodes : List Node) (instrs : List Instruction) (opts : List Node),
    (∀ i ∈ instrs, P i) →
    ∀ i ∈ compileFinish d (nodes.foldl (compileStep d) (instrs, opts)), P i
  | [], instrs, opts => by
    intro hall i hi
    by_cases h : 0 < opts.length <;>
      simp only [List.foldl_nil, compileFinish, h, if_true, if_false,
        reduceIte, List.mem_append, List.mem_singleton] at hi
    · rcases hi with hi | hi
      · exact hall i hi
      · subst hi; exact hchoice opts
    · exact hall i hi
  | n :: rest, instrs, opts => by
    intro hall
    by_cases h : 0 < opts.length <;>
      by_cases ho : isOptionNode n <;>
      by_cases hc : isCommentNode n <;>
      simp only [List.foldl_cons, compileStep, h, ho, hc, if_true, if_false,
        reduceIte] <;>
      refine compile_all_aux d P hchoice hnode rest _ _ ?_ <;>
      intro i hi <;>
      simp only [List.mem_append, List.mem_cons, List.mem_singleton,
        List.not_mem_nil, or_false] at hi <;>
      first
        | exact hall i hi
        | (rcases hi with hi | hi
           · exact hall i hi
           · first
              | (subst hi; exact hchoice opts)
              | (subst hi; exact hnode n)
              | (rcases hi with hi | hi
                 · subst hi; exact hchoice opts
                 · subst hi; exact hnode n))

/-- Claim C4: for every node sequence and disposable flag, the compiler
emits exactly one `Choice` per maximal run of consecutive `option` nodes
(a trailing run is flushed after the loop; a `comment` ending a run only
triggers the flush and is itself discarded, and a `comment` outside a run
emits nothing — both facts visible in the run count together with the
`NodeInstruction` subsequence); every node that is neither an option nor
a comment becomes one `NodeInstruction`, in input order; the disposable
flag propagates to every emitted instruction; and every emitted `Choice`
has `isEmbeddedCode = false`. -/
theorem c4_option_fusion (nodes : List Node) (d : Bool) :
    countChoices (Compiler.compileNodes nodes d) = countOptionRuns nodes
    ∧ nodeInstructionsOf (Compiler.compileNodes nodes d) =
        (nodes.filter (fun n => !isOptionNode n && !isCommentNode n)).map
          (fun n => NodeInstruction n d)
    ∧ (∀ i ∈ Compiler.compileNodes nodes d, i.isDisposable = d)
    ∧ (∀ i ∈ Compiler.compileNodes nodes d,
        ∀ os dd e, i = .choice os dd e → e = false) := by
  refine ⟨?_, ?_, ?_, ?_⟩
  · have h := compile_count_aux d nodes [] []
    simpa [countOptionRuns] using h
  · have h := compile_nodeInstrs_aux d nodes [] []
    simpa using h
  · exact compile_all_aux d (fun i => i.isDisposable = d)
      (fun ns => rfl) (fun n => rfl) nodes [] [] (by simp)
  · refine compile_all_aux d
      (fun i => ∀ os dd e, i = .choice os dd e → e = false)
      (fun ns os dd e he => ?_) (fun n os dd e he => ?_) nodes [] [] (by simp)
    · simp [ChoiceInstruction.fromNodes] at he
      exact he.2.2
    · simp [NodeInstruction] at he

/-- Witness for C4 on S2's node list: its two-option run compiles to
exactly one `Choice` (`countOptionRuns s2Nodes = 1` by evaluation), and a
concrete emitted instruction carries the compile's disposable flag. -/
theorem c4_option_fusion_witness :
    countChoices (Compiler.compileNodes s2Nodes false) = countOptionRuns s2Nodes
    ∧ (NodeInstruction [("type", Value.str "aside"), ("aside", Value.str "a1")]
        false).isDisposable = false := by
  refine ⟨(c4_option_fusion s2Nodes false).1, ?_⟩
  exact (c4_option_fusion s2Nodes false).2.2.1 _ (by decide)

/-- A successful jump changes only the PC. -/
theorem jump_ok_fields (f : Frame) (tag : Option String) (f' : Frame)
    (h : f.jump tag = .ok f') :
    f'.instructions = f.instructions
    ∧ f'.originalInstructions = f.originalInstructions
    ∧ f'.modulePath = f.modulePath := by
  cases tag with
  | none =>
    simp only [Frame.jump, Except.ok.injEq] at h
    subst h; exact ⟨rfl, rfl, rfl⟩
  | some t =>
    simp only [Frame.jump] at h
    cases hf : findJumpPoint t f.instructions <;> rw [hf] at h
    · simp at h
    · simp only [Except.ok.injEq] at h
      subst h; exact ⟨rfl, rfl, rfl⟩

/-- The load condition of the `call`/`goto` cases: a non-null, non-empty
path on which `modulePathEquals` denies equality with the current
module. -/
def crossModule (env : Environment) (path : Option String) (modulePath : String) : Bool :=
  match path with
  | some p => p.length > 0 && !(env.modulePathEquals p modulePath)
  | none => false

/-- The `call` case of the dispatch, spelled out. -/
theorem execInstr_call_eq (ctx : Ctx) (p t : Option String) (d : Bool)
    (cf : Frame) (rest : List Frame) (ch : Option Instruction) (out : Output) :
    execInstr ctx (.call p t d) cf rest ch out =
      (match p with
       | some pp =>
         if pp.length > 0 && !(ctx.env.modulePathEquals pp cf.modulePath) then
           match ctx.env.loadModule pp cf.modulePath with
           | some m =>
             (match (Frame.ofModule m).jump t with
              | .ok jumped => ((⟨jumped :: cf :: rest, ch⟩, out), none)
              | .error e => ((⟨Frame.ofModule m :: cf :: rest, ch⟩, out), some e))
           | none => ((⟨cf :: rest, ch⟩, out), some .envFailure)
         else
           (match (Frame.fromOther cf).jump t with
            | .ok jumped => ((⟨jumped :: cf :: rest, ch⟩, out), none)
            | .error e => ((⟨Frame.fromOther cf :: cf :: rest, ch⟩, out), some e))
       | none =>
         match (Frame.fromOther cf).jump t with
         | .ok jumped => ((⟨jumped :: cf :: rest, ch⟩, out), none)
         | .error e => ((⟨Frame.fromOther cf :: cf :: rest, ch⟩, out), some e)) := rfl

/-- The `goto` case of the dispatch, spelled out. -/
theorem execInstr_goto_eq (ctx : Ctx) (p t : Option String) (d : Bool)
    (cf : Frame) (rest : List Frame) (ch : Option Instruction) (out : Output) :
    execInstr ctx (.goto p t d) cf rest ch out =
      (match p with
       | some pp =>
         if pp.length > 0 && !(ctx.env.modulePathEquals pp cf.modulePath) then
           match ctx.env.loadModule pp cf.modulePath with
           | some m =>
             (match (Frame.ofModule m).jump t with
              | .ok jumped => ((⟨jumped :: rest, ch⟩, out), none)
              | .error e => ((⟨Frame.ofModule m :: rest, ch⟩, out), some e))
           | none => ((⟨cf :: rest, ch⟩, out), some .envFailure)
         else
           (match cf.jump t with
            | .ok jumped => ((⟨jumped :: rest, ch⟩, out), none)
            | .error e => ((⟨cf :: rest, ch⟩, out), some e))
       | none =>
         match cf.jump t with
         | .ok jumped => ((⟨jumped :: rest, ch⟩, out), none)
         | .error e => ((⟨cf :: rest, ch⟩, out), some e)) := rfl

/-- Claim C7: a `Call` whose path is null/empty or judged equal to the
current module pushes a frame built by `Frame.fromOther` from the current
frame's PRISTINE instruction list: whatever mutations the caller's
working list has seen, the callee's working list equals the module's
original instructions (the jump performed on the pushed frame moves only
its PC; on a failing jump the un-jumped fresh frame is what was pushed). -/
theorem c7_same_module_call (ctx : Ctx) (currentFrame : Frame) (rest : List Frame)
    (choice : Option Instruction) (output : Output) (path tag : Option String)
    (d : Bool)
    (h : crossModule ctx.env path currentFrame.modulePath = false) :
    ∃ f',
      (execInstr ctx (.call path tag d) currentFrame rest choice output).1.1.stack
        = f' :: currentFrame :: rest
      ∧ f'.instructions = currentFrame.originalInstructions
      ∧ f'.originalInstructions = currentFrame.originalInstructions
      ∧ f'.modulePath = currentFrame.modulePath := by
  rw [execInstr_call_eq]
  cases path with
  | none =>
    cases hj : (Frame.fromOther currentFrame).jump tag with
    | ok jumped =>
      have hf := jump_ok_fields _ tag _ hj
      exact ⟨jumped, rfl, hf.1, hf.2.1, hf.2.2⟩
    | error e =>
      exact ⟨Frame.fromOther currentFrame, rfl, rfl, rfl, rfl⟩
  | some p =>
    simp only [crossModule] at h
    simp only [h, if_false, Bool.false_eq_true, reduceIte]
    cases hj : (Frame.fromOther currentFrame).jump tag with
    | ok jumped =>
      have hf := jump_ok_fields _ tag _ hj
      exact ⟨jumped, rfl, hf.1, hf.2.1, hf.2.2⟩
    | error e =>
      exact ⟨Frame.fromOther currentFrame, rfl, rfl, rfl, rfl⟩

/-- A caller frame with a heavily mutated (emptied) working list, used to
exhibit the same-module call freshness concretely. -/
def c7CallerFrame : Frame :=
  { instructions := []
    programCounter := 5
    modulePath := "m"
    originalInstructions := Compiler.compileNodes s2Nodes false }

/-- Witness for C7: a same-module call (`path = none`) from the mutated
caller pushes a frame whose working list is the pristine program. -/
theorem c7_same_module_call_witness :
    ∃ f',
      (execInstr trivialCtx (.call none none true) c7CallerFrame [] none
          {}).1.1.stack = f' :: c7CallerFrame :: []
      ∧ f'.instructions = Compiler.compileNodes s2Nodes false
      ∧ f'.originalInstructions = Compiler.compileNodes s2Nodes false
      ∧ f'.modulePath = "m" :=
  c7_same_module_call trivialCtx c7CallerFrame [] none {} none none true
    (by decide)

/-- Claim C8: a `Goto` whose path is null/empty or judged equal to the
current module leaves the frame stack as it is — same depth, same frames
below — and only jumps within the (already advanced) current frame, a
jump that moves only the PC; a cross-module `Goto` loads the target
module, REPLACES the top frame by a fresh frame of the loaded module
(depth unchanged) and jumps there, a null tag meaning PC 0.  A failing
load or jump throws, leaving the stated stack in place. -/
theorem c8_goto (ctx : Ctx) (currentFrame : Frame) (rest : List Frame)
    (choice : Option Instruction) (output : Output) (path tag : Option String)
    (d : Bool) :
    (crossModule ctx.env path currentFrame.modulePath = false →
      execInstr ctx (.goto path tag d) currentFrame rest choice output =
        match currentFrame.jump tag with
        | .ok jumped => ((⟨jumped :: rest, choice⟩, output), none)
        | .error e => ((⟨currentFrame :: rest, choice⟩, output), some e))
    ∧ (∀ p, path = some p →
        crossModule ctx.env path currentFrame.modulePath = true →
        execInstr ctx (.goto path tag d) currentFrame rest choice output =
          match ctx.env.loadModule p currentFrame.modulePath with
          | none => ((⟨currentFrame :: rest, choice⟩, output), some .envFailure)
          | some m =>
            match (Frame.ofModule m).jump tag with
            | .ok jumped => ((⟨jumped :: rest, choice⟩, output), none)
            | .error e => ((⟨Frame.ofModule m :: rest, choice⟩, output), some e))
    ∧ (∀ f f' : Frame, f.jump tag = .ok f' →
        f'.instructions = f.instructions
        ∧ f'.originalInstructions = f.originalInstructions
        ∧ f'.modulePath = f.modulePath)
    ∧ (∀ f : Frame, f.jump none = .ok { f with programCounter := 0 }) := by
  refine ⟨?_, ?_, fun f f' => jump_ok_fields f tag f', fun f => rfl⟩
  · intro h
    rw [execInstr_goto_eq]
    cases path with
    | none => rfl
    | some p =>
      simp only [crossModule] at h
      simp only [h, Bool.false_eq_true, reduceIte]
  · intro p hp h
    subst hp
    simp only [crossModule] at h
    rw [execInstr_goto_eq]
    simp only [h, reduceIte]
    cases ctx.env.loadModule p currentFrame.modulePath <;> rfl

/-- Witness for C8: a same-module `goto` to the label `t` of S4's start
frame jumps in place, leaving a one-frame stack. -/
theorem c8_goto_witness :
    execInstr trivialCtx (.goto none (some "t") false) (Frame.ofModule s4Module)
        [] none {} =
      ((⟨[{ Frame.ofModule s4Module with programCounter := 2 }], none⟩, {}), none) := by
  have h := (c8_goto trivialCtx (Frame.ofModule s4Module) [] none {} none
    (some "t") false).1 (by decide)
  rw [h]
  rfl

/-- The pending option selected by index `i` of the stored choice. -/
def pendingOptionAt (s : VMState) (i : Int) : Option Opt :=
  match s.choice with
  | some c => optAt c.options i
  | none => none

/-- Claim C9: with a pending choice and a current frame, `nextOutput`
throws `MissingInput` on a null input, `NullOptionIndex` on a null
`optionIndex`, and `OptionIndexOutOfRange` when the index selects no
option of the pending choice — and in each failure the state is returned
exactly as it was: nothing is inserted and the pending choice stays. -/
theorem c9_pending_choice_errors (ctx : Ctx) (fuel : Nat) (s : VMState)
    (c : Instruction) (f : Frame) (rest : List Frame)
    (hc : s.choice = some c) (hs : s.stack = f :: rest) :
    nextOutput ctx fuel s none = some (s, .error .missingInput)
    ∧ nextOutput ctx fuel s (some ⟨none⟩) = some (s, .error .nullOptionIndex)
    ∧ (∀ i : Int, optAt c.options i = none →
        nextOutput ctx fuel s (some ⟨some i⟩) =
          some (s, .error .optionIndexOutOfRange)) := by
  refine ⟨?_, ?_, ?_⟩
  · simp only [nextOutput, hc, hs]
  · simp only [nextOutput, hc, hs]
  · intro i hi
    simp only [nextOutput, hc, hs, hi]

/-- The choice instruction pending after S2's first call. -/
def s2PendingChoice : Instruction :=
  match s2State1.choice with
  | some c => c
  | none => .advEnd false

/-- The top frame after S2's first call. -/
def s2TopFrame : Frame :=
  match s2State1.stack with
  | f :: _ => f
  | [] => Frame.ofModule s2Module

/-- Witness for C9 at the state S2's first call leaves behind: a missing
input and an out-of-range index both throw, leaving the state intact. -/
theorem c9_pending_choice_errors_witness :
    nextOutput trivialCtx 20 s2State1 none = some (s2State1, .error .missingInput)
    ∧ nextOutput trivialCtx 20 s2State1 (some ⟨some 5⟩) =
        some (s2State1, .error .optionIndexOutOfRange) := by
  have h := c9_pending_choice_errors trivialCtx 20 s2State1 s2PendingChoice
    s2TopFrame [] (by rfl) (by rfl)
  exact ⟨h.1, h.2.2 5 (by decide)⟩

/-- The stepping loop hands back an output either at a pause point or
because the stack emptied during the step. -/
theorem phase2_ok_some (ctx : Ctx) : ∀ (fuel : Nat) (s : VMState) (out : Output)
    (s' : VMState) (o : Output),
    phase2 ctx fuel s out = some (s', .ok (some o)) →
    o.pausePoint ≠ none ∨ s'.stack = []
  | 0, s, out, s', o => by
    intro h
    simp [phase2] at h
  | fuel + 1, ⟨stack, choice⟩, out, s', o => by
    intro h
    simp only [phase2] at h
    cases stack with
    | nil =>
      simp only [Option.some.injEq, Prod.mk.injEq, Except.ok.injEq] at h
      right
      rw [← h.1]
    | cons f rest =>
      by_cases he : f.isEnded <;> simp only [he, Bool.false_eq_true, if_true,
        if_false, reduceIte] at h
      · exact phase2_ok_some ctx fuel _ _ _ _ h
      · split at h
        · exact absurd h (by simp)
        · split at h
          · exact absurd h (by simp)
          · split at h
            · exact phase2_ok_some ctx fuel _ _ _ _ h
            · next hp =>
              simp only [Option.some.injEq, Prod.mk.injEq, Except.ok.injEq] at h
              left
              rw [← h.2]
              exact hp

/-- Same fact lifted over the ended-frame popping that precedes the
stepping loop. -/
theorem runLoops_ok_some (ctx : Ctx) (fuel : Nat) (s : VMState) (s' : VMState)
    (o : Output) (h : runLoops ctx fuel s = some (s', .ok (some o))) :
    o.pausePoint ≠ none ∨ s'.stack = [] := by
  unfold runLoops at h
  split at h
  · simp at h
  · exact phase2_ok_some ctx fuel _ _ _ _ h

/-- Claim C2, amended: every successful `nextOutput` call returns null,
or returns an Output that either carries a non-null pause point or —
when the stack emptied during the step, the end-of-script case — carries
a null pause point with the final stack empty.  (The claim's stronger
invariant, and its reading of scenario S4 as returning null, are refuted
by `returnedOutputWithNullPause s4Run = true`.) -/
theorem c2_output_invariant_amended (ctx : Ctx) (fuel : Nat) (s : VMState)
    (input : Option Input) (s' : VMState) (r : Option Output)
    (h : nextOutput ctx fuel s input = some (s', .ok r)) :
    r = none ∨ ∃ o, r = some o ∧ (o.pausePoint ≠ none ∨ s'.stack = []) := by
  cases r with
  | none => exact Or.inl rfl
  | some o =>
    refine Or.inr ⟨o, rfl, ?_⟩
    unfold nextOutput at h
    split at h
    · split at h
      · simp at h
      · split at h
        · simp at h
        · split at h
          · simp at h
          · split at h
            · simp at h
            · exact runLoops_ok_some ctx fuel _ _ _ h
    · exact runLoops_ok_some ctx fuel _ _ _ h

/-- Counterexample to claim C2 as stated: in scenario S4 the first
`nextOutput` call succeeds with a NON-null Output whose `pausePoint` is
null (the stack was cleared during the step), where the claim expects
the call to return null. -/
theorem c2_counterexample_s4 : returnedOutputWithNullPause s4Run = true := by
  rfl

/-- The state S4's first call leaves behind. -/
def s4StateAfter : VMState :=
  match s4Run with
  | some (s, _) => s
  | none => initialState s4Module

/-- The value S4's first call returns. -/
def s4Value : Option Output :=
  match s4Run with
  | some (_, .ok v) => v
  | _ => none

/-- Witness for the amended C2 at scenario S4's first call. -/
theorem c2_output_invariant_amended_witness :
    s4Value = none
    ∨ ∃ o, s4Value = some o ∧ (o.pausePoint ≠ none ∨ s4StateAfter.stack = []) :=
  c2_output_invariant_amended trivialCtx 20 (initialState s4Module) none
    s4StateAfter s4Value (by rfl)

/-- The shape of a dispatch result that cannot break the pending-choice
invariant: either the pending choice is clear, or the top frame survived
and a pause point was produced (the `choice` case). -/
def resultKeepsChoiceInv (r : (VMState × Output) × Option VmError) : Prop :=
  r.1.1.choice = none ∨ (r.1.1.stack ≠ [] ∧ r.1.2.pausePoint ≠ none)

/-- Dispatching with no pending choice either keeps the choice clear, or
— in the one branch that stores a pending choice — keeps the executing
frame on the stack and produces a pause point. -/
theorem execInstr_choice_none (ctx : Ctx) (i : Instruction) (cf : Frame)
    (rest : List Frame) (out : Output) :
    resultKeepsChoiceInv (execInstr ctx i cf rest none out) := by
  unfold execInstr
  by_cases h1 : i.itype = some (Value.str "aside")
  · rw [if_pos h1]; exact Or.inl rfl
  rw [if_neg h1]
  by_cases h2 : i.itype = some (Value.str "functionCalling")
  · rw [if_pos h2]; exact Or.inl rfl
  rw [if_neg h2]
  by_cases h3 : i.itype = some (Value.str "embeddedCode")
  · rw [if_pos h3]; exact Or.inl rfl
  rw [if_neg h3]
  by_cases h4 : i.itype = some (Value.str "roleOperation")
  · rw [if_pos h4]; exact Or.inl rfl
  rw [if_neg h4]
  by_cases h5 : i.itype = some (Value.str "insertedImage")
  · rw [if_pos h5]; exact Or.inl rfl
  rw [if_neg h5]
  by_cases h6 : i.itype = some (Value.str "roleDialog")
  · rw [if_pos h6]; exact Or.inl rfl
  rw [if_neg h6]
  by_cases h7 : i.itype = some (Value.str "roleExpression")
  · rw [if_pos h7]; exact Or.inl rfl
  rw [if_neg h7]
  by_cases h8 : i.itype = some (Value.str "scene")
  · rw [if_pos h8]; exact Or.inl rfl
  rw [if_neg h8]
  by_cases h9 : i.itype = some (Value.str "choice")
  · rw [if_pos h9]
    simp [resultKeepsChoiceInv]
  rw [if_neg h9]
  by_cases h10 : i.itype = some (Value.str "jumpPoint")
  · rw [if_pos h10]; exact Or.inl rfl
  rw [if_neg h10]
  by_cases h11 : i.itype = some (Value.str "call")
  · rw [if_pos h11]
    repeat' split
    all_goals exact Or.inl rfl
  rw [if_neg h11]
  by_cases h12 : i.itype = some (Value.str "goto")
  · rw [if_pos h12]
    repeat' split
    all_goals exact Or.inl rfl
  rw [if_neg h12]
  by_cases h13 : i.itype = some (Value.str "adv_end")
  · rw [if_pos h13]; exact Or.inl rfl
  rw [if_neg h13]
  exact Or.inl rfl

/-- The stepping loop, entered with no pending choice, ends in a state
where a pending choice implies a non-empty stack. -/
theorem phase2_choice_inv (ctx : Ctx) : ∀ (fuel : Nat) (s : VMState)
    (out : Output) (s' : VMState) (r : Except VmError (Option Output)),
    s.choice = none → phase2 ctx fuel s out = some (s', r) →
    s'.choice = none ∨ s'.stack ≠ []
  | 0, s, out, s', r => by
    intro _ h
    simp [phase2] at h
  | fuel + 1, ⟨stack, choice⟩, out, s', r => by
    intro hch h
    obtain rfl : choice = none := hch
    simp only [phase2] at h
    cases stack with
    | nil =>
      simp only [Option.some.injEq, Prod.mk.injEq] at h
      left
      rw [← h.1]
    | cons f rest =>
      by_cases he : f.isEnded <;> simp only [he, Bool.false_eq_true, if_true,
        if_false, reduceIte] at h
      · exact phase2_choice_inv ctx fuel _ _ _ _ rfl h
      · split at h
        · exact absurd h (by simp)
        · next ci heq =>
          have hinv := execInstr_choice_none ctx ci f.nextInstruction rest out
          rcases hx : execInstr ctx ci f.nextInstruction rest none out
            with ⟨⟨s2, out2⟩, err⟩
          rw [hx] at h hinv
          unfold resultKeepsChoiceInv at hinv
          cases err with
          | some e =>
            simp only [Option.some.injEq, Prod.mk.injEq] at h
            rw [← h.1]
            rcases hinv with hl | hr
            · exact Or.inl hl
            · exact Or.inr hr.1
          | none =>
            by_cases hp : out2.pausePoint = none <;>
              simp only [hp, if_true, if_false, Bool.false_eq_true, reduceIte] at h
            · rcases hinv with hl | hr
              · exact phase2_choice_inv ctx fuel _ _ _ _ hl h
              · exact absurd hp hr.2
            · simp only [Option.some.injEq, Prod.mk.injEq] at h
              rw [← h.1]
              rcases hinv with hl | hr
              · exact Or.inl hl
              · exact Or.inr hr.1

/-- Same invariant across the ended-frame popping. -/
theorem runLoops_choice_inv (ctx : Ctx) (fuel : Nat) (s : VMState)
    (s' : VMState) (r : Except VmError (Option Output))
    (hch : s.choice = none) (h : runLoops ctx fuel s = some (s', r)) :
    s'.choice = none ∨ s'.stack ≠ [] := by
  unfold runLoops at h
  split at h
  · simp only [Option.some.injEq, Prod.mk.injEq] at h
    left
    rw [← h.1]
    exact hch
  · refine phase2_choice_inv ctx fuel _ _ _ _ ?_ h
    exact hch

/-- One `nextOutput` call (successful or throwing) preserves the
pending-choice/stack invariant. -/
theorem nextOutput_choice_inv (ctx : Ctx) (fuel : Nat) (s : VMState)
    (input : Option Input) (s' : VMState) (r : Except VmError (Option Output))
    (hP : s.choice = none ∨ s.stack ≠ [])
    (h : nextOutput ctx fuel s input = some (s', r)) :
    s'.choice = none ∨ s'.stack ≠ [] := by
  unfold nextOutput at h
  split at h
  · next pc heq =>
    split at h
    · next heq2 =>
      rcases hP with hl | hr
      · rw [heq] at hl
        exact absurd hl (by simp)
      · exact absurd heq2 hr
    · split at h
      · simp only [Option.some.injEq, Prod.mk.injEq] at h
        rw [← h.1]
        exact hP
      · split at h
        · simp only [Option.some.injEq, Prod.mk.injEq] at h
          rw [← h.1]
          exact hP
        · split at h
          · simp only [Option.some.injEq, Prod.mk.injEq] at h
            rw [← h.1]
            exact hP
          · exact runLoops_choice_inv ctx fuel _ _ _ rfl h
  · next heq =>
    exact runLoops_choice_inv ctx fuel _ _ _ heq h

/-- Every state reachable through the constructor and `nextOutput` calls
has no pending choice or a non-empty frame stack. -/
theorem reachable_choice_inv (ctx : Ctx) (m : VmModule) (s : VMState)
    (h : Reachable ctx (initialState m) s) :
    s.choice = none ∨ s.stack ≠ [] := by
  induction h with
  | init => exact Or.inl rfl
  | step hr hstep ih => exact nextOutput_choice_inv _ _ _ _ _ _ ih hstep

/-- Claim C10: in every state reachable through the constructor and
`nextOutput` calls, a pending choice implies a non-empty frame stack; the
`nextOutput` branch that would return null because no current frame
exists while a choice is pending can therefore never be taken from a
reachable state. -/
theorem c10_pending_choice_stack (ctx : Ctx) (m : VmModule) (s : VMState)
    (h : Reachable ctx (initialState m) s) (hc : s.choice ≠ none) :
    s.stack ≠ [] := by
  rcases reachable_choice_inv ctx m s h with hl | hr
  · exact absurd hl hc
  · exact hr

/-- The result of S2's first call. -/
def s2Res1 : Except VmError (Option Output) :=
  match s2Run1 with
  | some (_, r) => r
  | none => .ok none

/-- Witness for C10 at the reachable state S2's first call produces: a
choice is pending there, and the theorem yields the non-empty stack. -/
theorem c10_pending_choice_stack_witness : s2State1.stack ≠ [] :=
  c10_pending_choice_stack trivialCtx s2Module s2State1
    (.step .init
      (show nextOutput trivialCtx 20 (initialState s2Module) none =
        some (s2State1, s2Res1) from rfl))
    (by decide)

/-- Claim C1 (code-bug exhibit): in scenario S2 the pending choice's
option 1 carries target module `m` and target tag `t2` in its
`pathOrCodeContent`/`tagOrCodeType` fields, yet the second call — because
the source reads the non-existent `selectedOption.path`/`.tag` properties
— inserts `Call(undefined, undefined)`, re-enters the module at PC 0 and
returns `Options(["A","B"])` again instead of the claimed `Aside("a2")`. -/
theorem c1_s2_selected_target_dropped :
    pendingOptionAt s2State1 1 =
      some { name := some (.str "B"), pathOrCodeContent := some (.str "m"),
             tagOrCodeType := some (.str "t2") }
    ∧ pausePointOf s2Run1 =
        some (.options [some (.str "A"), some (.str "B")])
    ∧ pausePointOf s2Run2 =
        some (.options [some (.str "A"), some (.str "B")])
    ∧ pausePointOf s2Run2 ≠ some (Aside.ofNode [("aside", .str "a2")]) := by
  refine ⟨rfl, rfl, rfl, ?_⟩
  decide

/-- Claim C3 (code-bug exhibit): the parser's rule table assigns the node
types `characterOperation`, `characterDialog` and `characterExpression`,
none of which is in the closed set the specification names, and the VM's
dispatcher rejects such a node with `UnknownInstruction` instead of
executing it. -/
theorem c3_parser_vm_type_mismatch :
    "characterOperation" ∈ Parser.statementTypes
    ∧ "characterDialog" ∈ Parser.statementTypes
    ∧ "characterExpression" ∈ Parser.statementTypes
    ∧ "characterOperation" ∉ specNodeTypeSet
    ∧ "characterDialog" ∉ specNodeTypeSet
    ∧ "characterExpression" ∉ specNodeTypeSet
    ∧ (execInstr trivialCtx
        (NodeInstruction [("type", .str "characterOperation"),
          ("characterName", .str "a"), ("operator", .str "+"),
          ("target", .str "b")] false)
        (Frame.ofModule s4Module) [] none {}).2
      = some (.unknownInstruction (some (.str "characterOperation"))) := by
  exact ⟨by decide, by decide, by decide, by decide, by decide, by decide, rfl⟩
